import Mathlib

/-!
Verification of the Fold_U alignment scoring engine.

This file gives a shallow embedding of the numerical scoring procedures of
the repository (`src/alignment.py`, `src/threading.py`) and proves or
refutes the frozen claims about them.

Conventions of the embedding:
* Python floats are modelled as `ℚ` (all arithmetic in the scorers is
  exact on the inputs considered: sums, products, divisions, comparisons).
* The numpy object matrices are modelled as total functions from index
  pairs; `np.nan` / `None` / the string sentinels become explicit
  constructors or `Option`.
* `Residue.calculate_distance` lives in a module of the repository that is
  not under `src/`; following the spec it is the Euclidean distance between
  the residues' named backbone atoms.  It is abstracted as a distance
  oracle `dist : Nat → Nat → ℚ` indexed by alignment position, which is
  exact for the concrete geometries used by the claims (collinear CA atoms).
* Fallible code (uncaught `ZeroDivisionError`, `NameError`) returns
  `Option`, with `none` on the raising path.
-/

namespace FoldU

/-! ### Threading energy score (`Alignment.calculate_threading_score`) -/

/-- Matrix of the threading energies: models the numpy object matrix
`energy` of `calculate_threading_score`.  `none` models `np.nan`,
`some v` a stored numeric value (the gap penalty `0` is `some 0`). -/
def TMat : Type := Nat → Nat → Option ℚ

/-- `np.empty(...)` followed by `energy.fill(np.nan)`: the all-NaN matrix. -/
def initTMat : TMat := fun _ _ => none

/-- Numpy row-slice assignment `m[i, lo:] = v` on a matrix of width `w`. -/
def tSetRowFrom (m : TMat) (i lo w : Nat) (v : Option ℚ) : TMat :=
  fun a b => if a = i ∧ lo ≤ b ∧ b < w then v else m a b

/-- Numpy column-slice assignment `m[:hi, j] = v`. -/
def tSetColUpTo (m : TMat) (j hi : Nat) (v : Option ℚ) : TMat :=
  fun a b => if b = j ∧ a < hi then v else m a b

/-- Single-cell assignment `m[i, j] = v`. -/
def tSetCell (m : TMat) (i j : Nat) (v : Option ℚ) : TMat :=
  fun a b => if a = i ∧ b = j then v else m a b

/-- Python `int()` truncation toward zero on a rational.  The source computes
`round(int((dist * 30) / 15))`; `round` of an integer is the integer itself. -/
def pyInt (x : ℚ) : Int := if 0 ≤ x then ⌊x⌋ else ⌈x⌉

/-- `np.nansum` over the `n × n` matrix: `NaN` (`none`) counts as `0`. -/
def nansum (m : TMat) (n : Nat) : ℚ :=
  ((List.range n).map (fun i =>
    ((List.range n).map (fun j => (m i j).getD 0)).sum)).sum

/-- Body of the inner `for j in range(i + 2, query_size - 1)` loop of
`calculate_threading_score`.  `dope` is the DOPE table, keyed (as in the
source) by the concatenation of the two residue names. -/
def threadInner (query template : List String) (dist : Nat → Nat → ℚ)
    (lo hi : ℚ) (dope : String → Int → ℚ) (i : Nat) (m : TMat) (j : Nat) : TMat :=
  if m i j = some 0 then m
  else if query.getD j "-" = "-" ∨ template.getD j "-" = "-" then
    tSetColUpTo m j (j - 1) (some 0)
  else if lo ≤ dist i j ∧ dist i j ≤ hi then
    tSetCell m i j
      (some (dope (query.getD i "-" ++ query.getD j "-") (pyInt (dist i j * 30 / 15))))
  else m

/-- Body of the outer `for i, row_res in enumerate(query)` loop of
`calculate_threading_score`.  The first guard `i <= (query_size - 3)` is
evaluated over `Int`, as in Python. -/
def threadRow (query template : List String) (dist : Nat → Nat → ℚ)
    (lo hi : ℚ) (dope : String → Int → ℚ) (qsize : Nat) (m : TMat) (i : Nat) : TMat :=
  if (i : Int) ≤ (qsize : Int) - 3 ∧ m i (i + 2) = some 0 then m
  else if query.getD i "-" = "-" ∨ template.getD i "-" = "-" then
    tSetRowFrom m i (i + 2) qsize (some 0)
  else
    (List.range' (i + 2) (qsize - 1 - (i + 2))).foldl
      (threadInner query template dist lo hi dope i) m

/-- `Alignment.calculate_threading_score` (src/alignment.py lines 109-170):
fills the energy matrix over all rows and returns `np.nansum(energy) * (-1)`.
`dist i j` abstracts `template[i].calculate_distance(template[j], "CA")`
(the missing `Residue.calculate_distance`, Euclidean CA-CA distance per the
spec); `(lo, hi)` is `dist_range`. -/
def calculate_threading_score (query template : List String)
    (dist : Nat → Nat → ℚ) (lo hi : ℚ) (dope : String → Int → ℚ) : ℚ :=
  let qsize := query.length
  nansum ((List.range qsize).foldl
    (threadRow query template dist lo hi dope qsize) initTMat) qsize * (-1)

/-- Scenario A geometry: template CA atoms on a straight line spaced 3.8 Å
apart, so the Euclidean distance between positions `i` and `j` is
`|i - j| * 3.8`. -/
def lineDist (i j : Nat) : ℚ := ((max i j - min i j : Nat) : ℚ) * (19 / 5)

/-- Scenario A sequences: query = template = `"AAAA"`. -/
def seqAAAA : List String := ["A", "A", "A", "A"]

/-- A concrete DOPE table assigning energy 1 to every key and bucket,
used to witness Scenario A numerically. -/
def dopeOne : String → Int → ℚ := fun _ _ => 1

/-- Predicate used by the invariant proofs: every cell of the energy matrix
is `NaN` or the gap penalty `0`. -/
def ZeroOrNone (m : TMat) : Prop := ∀ a b, m a b = none ∨ m a b = some 0

/-! ### Distance matrix of the threading module (`threading.calc_dist_matrix`) -/

/-- Cell of the matrix built by `calc_dist_matrix` (src/threading.py):
`inf` is the `np.inf` fill value, `star` the `"*"` gap marker, `val d` a
stored distance. -/
inductive DCell
  | inf
  | star
  | val (d : ℚ)
deriving DecidableEq

/-- Matrix type of `calc_dist_matrix`. -/
def DMat : Type := Nat → Nat → DCell

/-- `np.full((n, n), np.inf)`. -/
def initDMat : DMat := fun _ _ => DCell.inf

/-- `matrix[i, j:] = "*"` on a matrix of width `w`. -/
def dSetRowFrom (m : DMat) (i lo w : Nat) : DMat :=
  fun a b => if a = i ∧ lo ≤ b ∧ b < w then DCell.star else m a b

/-- `matrix[:hi, j] = "*"`. -/
def dSetColUpTo (m : DMat) (j hi : Nat) : DMat :=
  fun a b => if b = j ∧ a < hi then DCell.star else m a b

/-- `matrix[i, j] = v`. -/
def dSetCell (m : DMat) (i j : Nat) (v : DCell) : DMat :=
  fun a b => if a = i ∧ b = j then v else m a b

/-- Inner `for j in range(i, len(query))` loop of `calc_dist_matrix`,
including the two `break` statements: the list argument is the remaining
`j` values, and the gap branches return without consuming the rest.
`d i j` abstracts `np.linalg.norm(template[i].CA_coords - template[j].CA_coords)`. -/
def distInner (query template : List String) (d : Nat → Nat → ℚ)
    (lo hi : ℚ) (qsize i : Nat) : DMat → List Nat → DMat
  | m, [] => m
  | m, j :: js =>
    if query.getD i "-" = "-" ∨ template.getD i "-" = "-" then
      dSetRowFrom m i j qsize
    else if query.getD j "-" = "-" ∨ template.getD j "-" = "-" then
      dSetColUpTo m j i
    else if lo ≤ d i j ∧ d i j ≤ hi then
      distInner query template d lo hi qsize i (dSetCell m i j (DCell.val (d i j))) js
    else
      distInner query template d lo hi qsize i m js

/-- `calc_dist_matrix` (src/threading.py lines 14-57): upper-triangular
distance matrix with `"*"` gap short-circuiting. -/
def calc_dist_matrix (query template : List String) (d : Nat → Nat → ℚ)
    (lo hi : ℚ) : DMat :=
  let qsize := query.length
  (List.range qsize).foldl
    (fun m i => distInner query template d lo hi qsize i m (List.range' i (qsize - i)))
    initDMat

/-- Modelled from the spec: the reference matrix of the refinement claim,
"checking each pair (i, j) for gaps independently and computing the
distance for every non-gap pair", over the same iteration space
(upper triangle `i ≤ j`, lower triangle untouched at `np.inf`). -/
def calc_dist_matrix_pairwise (query template : List String) (d : Nat → Nat → ℚ)
    (lo hi : ℚ) : DMat :=
  fun i j =>
    if i ≤ j ∧ j < query.length then
      if query.getD i "-" = "-" ∨ template.getD i "-" = "-" ∨
          query.getD j "-" = "-" ∨ template.getD j "-" = "-" then DCell.star
      else if lo ≤ d i j ∧ d i j ≤ hi then DCell.val (d i j)
      else DCell.inf
    else DCell.inf

/-! ### Secondary-structure score (`Alignment.calculate_ss_score`) -/

/-- Residue data used by the secondary-structure scorer: name,
PSIPRED/DSSP label, PSIPRED confidence. -/
structure SSRes where
  name : String
  secondary_struct : String
  ss_confidence : Int
deriving DecidableEq

/-- Out-of-range default residue (never reached on equal-length inputs). -/
def gapRes : SSRes := ⟨"-", "-", 0⟩

/-- Fuelled gap-skipping cursor:
`while k < qlen and rs[k].secondary_struct == "-": k += 1`. -/
def ssSkipAux (rs : List SSRes) (qlen : Nat) : Nat → Nat → Nat
  | 0, k => k
  | fuel + 1, k =>
    if k < qlen ∧ (rs.getD k gapRes).secondary_struct = "-" then
      ssSkipAux rs qlen fuel (k + 1)
    else k

/-- The gap-skipping `while` loop of `calculate_ss_score`; fuel `qlen - k`
suffices because the loop guard requires `k < qlen`. -/
def ssSkip (rs : List SSRes) (qlen k : Nat) : Nat := ssSkipAux rs qlen (qlen - k) k

/-- The `while ind < query_len` loop of `calculate_ss_score`, which runs
exactly `query_len` times (`ind` increments every iteration); the fuel is
the number of remaining iterations.  Returns `total_incorrect`. -/
def ssCount (q t : List SSRes) (qlen : Nat) : Nat → Nat → Nat → Nat
  | 0, _, _ => 0
  | fuel + 1, query_ind, templ_ind =>
    let qi := ssSkip q qlen query_ind
    let ti := ssSkip t qlen templ_ind
    (if qi < qlen ∧ ti < qlen ∧ (q.getD qi gapRes).ss_confidence < 7 ∧
        ¬ (q.getD qi gapRes).secondary_struct = (t.getD ti gapRes).secondary_struct
     then 1 else 0) + ssCount q t qlen fuel (qi + 1) (ti + 1)

/-- `Alignment.calculate_ss_score` (src/alignment.py lines 172-223).
The second component records whether the `ZeroDivisionError` branch was
taken (the error is printed and swallowed there, `score` stays `0`). -/
def calculate_ss_score (q t : List SSRes) : ℚ × Bool :=
  let qlen := q.length
  let total_incorrect := ssCount q t qlen qlen 0 0
  let gapless := (q.filter (fun r => r.name ≠ "-")).length
  if gapless = 0 then (0, true)
  else (((gapless : ℚ) - (total_incorrect : ℚ)) / (gapless : ℚ), false)

/-! ### Distance matrix of the co-evolution scorer
(`Alignment.calculate_distance_matrix`) -/

/-- Cell of the matrix built by `calculate_distance_matrix`
(src/alignment.py lines 225-283): `unset` is the `np.empty` `None` fill,
`x` the `"x"` marker, `val d` a stored distance. -/
inductive MCell
  | unset
  | x
  | val (d : ℚ)
deriving DecidableEq

/-- Matrix type of `calculate_distance_matrix`. -/
def MMat : Type := Nat → Nat → MCell

/-- `np.empty((size, size), dtype=object)`: all cells `None`. -/
def initMMat : MMat := fun _ _ => MCell.unset

/-- `distance[i, lo:] = "x"` on a matrix of width `w`. -/
def mSetRowFrom (m : MMat) (i lo w : Nat) : MMat :=
  fun a b => if a = i ∧ lo ≤ b ∧ b < w then MCell.x else m a b

/-- `distance[:rhi, clo:] = "x"` on a matrix of width `w`. -/
def mSetBlock (m : MMat) (rhi clo w : Nat) : MMat :=
  fun a b => if a < rhi ∧ clo ≤ b ∧ b < w then MCell.x else m a b

/-- `distance[i, j] = v`. -/
def mSetCell (m : MMat) (i j : Nat) (v : MCell) : MMat :=
  fun a b => if a = i ∧ b = j then v else m a b

/-- Fuelled cursor for
`while index < query_size and residues[index].name == "-": index += 1`. -/
def skipGapsAux (names : List String) (qsize : Nat) : Nat → Nat → Nat
  | 0, k => k
  | fuel + 1, k =>
    if k < qsize ∧ names.getD k "-" = "-" then skipGapsAux names qsize fuel (k + 1)
    else k

/-- The query-gap-skipping `while` loop of `calculate_distance_matrix`. -/
def skipGaps (names : List String) (qsize k : Nat) : Nat := skipGapsAux names qsize (qsize - k) k

/-- The atom choice of `calculate_distance_matrix`: CB-CB distance when both
residues have resolved CB coordinates, CA-CA distance otherwise.
`hasCB` abstracts `residues[k].cb_atom.coords != None`; `dCB`/`dCA`
abstract `Residue.calculate_distance` (Euclidean distance per the spec). -/
def cbOrCaDist (hasCB : Nat → Bool) (dCB dCA : Nat → Nat → ℚ) (a b : Nat) : ℚ :=
  if hasCB a ∧ hasCB b then dCB a b else dCA a b

/-- Inner `for dist_j in range(dist_i+1, self.query.last)` loop of
`calculate_distance_matrix`.  State: (matrix, `index_j`). -/
def cdmInner (query template : List String) (hasCB : Nat → Bool)
    (dCB dCA : Nat → Nat → ℚ) (qsize size dist_i index_i : Nat) :
    MMat × Nat → List Nat → MMat × Nat
  | s, [] => s
  | (m, index_j), dist_j :: rest =>
    let j := skipGaps query qsize index_j
    if j < qsize ∧ template.getD j "-" = "-" then
      cdmInner query template hasCB dCB dCA qsize size dist_i index_i
        (mSetRowFrom m dist_j (dist_j + 1) size, j + 1) rest
    else
      cdmInner query template hasCB dCB dCA qsize size dist_i index_i
        ((if m dist_i dist_j ≠ MCell.x then
            mSetCell m dist_i dist_j (MCell.val (cbOrCaDist hasCB dCB dCA index_i j))
          else m), j + 1) rest

/-- Outer `for dist_i in range(pos, self.query.last)` loop of
`calculate_distance_matrix`.  State: (matrix, `index_i`). -/
def cdmOuter (query template : List String) (hasCB : Nat → Bool)
    (dCB dCA : Nat → Nat → ℚ) (qsize size last : Nat) :
    MMat × Nat → List Nat → MMat × Nat
  | s, [] => s
  | (m, index_i), dist_i :: rest =>
    let i := skipGaps query qsize index_i
    if i < qsize ∧ template.getD i "-" = "-" then
      cdmOuter query template hasCB dCB dCA qsize size last
        (mSetRowFrom m dist_i (dist_i + 1) size, i + 1) rest
    else
      cdmOuter query template hasCB dCB dCA qsize size last
        ((cdmInner query template hasCB dCB dCA qsize size dist_i i (m, i + 1)
            (List.range' (dist_i + 1) (last - (dist_i + 1)))).1, i + 1) rest

/-- Leading `while pos < self.query.first-1` loop: rows before the aligned
span are marked `"x"`. -/
def cdmPrefix (size : Nat) : MMat → List Nat → MMat
  | m, [] => m
  | m, p :: rest => cdmPrefix size (mSetRowFrom m p (p + 1) size) rest

/-- Trailing `while pos < size-1` loop: the block after the aligned span is
marked `"x"`. -/
def cdmSuffix (size : Nat) : MMat → List Nat → MMat
  | m, [] => m
  | m, p :: rest => cdmSuffix size (mSetBlock m p (p + 1) size) rest

/-- Successful-path computation of `Alignment.calculate_distance_matrix`
(src/alignment.py lines 225-283): prefix gap rows, the double cursor loop,
then the trailing block, with `pos = dist_i = last - 1` after the loop. -/
def cdmRun (query template : List String) (hasCB : Nat → Bool)
    (dCB dCA : Nat → Nat → ℚ) (first last size : Nat) : MMat :=
  let qsize := query.length
  let pos0 := first - 1
  let m1 := cdmPrefix size initMMat (List.range pos0)
  let m2 := (cdmOuter query template hasCB dCB dCA qsize size last (m1, 0)
    (List.range' pos0 (last - pos0))).1
  cdmSuffix size m2 (List.range' (last - 1) (size - 1 - (last - 1)))

/-- `Alignment.calculate_distance_matrix`, with the uncaught `NameError`
(`pos = dist_i` when the main loop never ran, i.e. `first - 1 ≥ last`)
modelled as `none`. -/
def calculate_distance_matrix (query template : List String) (hasCB : Nat → Bool)
    (dCB dCA : Nat → Nat → ℚ) (first last size : Nat) : Option MMat :=
  if first - 1 < last then some (cdmRun query template hasCB dCB dCA first last size)
  else none

/-! ### Co-evolution score (`Alignment.calculate_coevolution_score`) -/

/-- The contact test of the co-evolution loop:
`isinstance(dist, float) and dist < 8`. -/
def isContact (c : MCell) : Bool :=
  match c with
  | MCell.val d => decide (d < 8)
  | _ => false

/-- One step of the `for top_position in top_couplings_dict.values()` loop:
the pair counts iff the `(i, j)` or the `(j, i)` entry is a numeric
distance below 8 Å. -/
def tpStep (dm : MMat) (acc : Nat) (p : Nat × Nat) : Nat :=
  if isContact (dm p.1 p.2) ∨ isContact (dm p.2 p.1) then acc + 1 else acc

/-- `true_pos` accumulated over the ranked couplings
(`top_couplings_dict.values()`, modelled as the list of pairs). -/
def true_pos (dm : MMat) (top : List (Nat × Nat)) : Nat := top.foldl (tpStep dm) 0

/-- The true-positive test as a predicate on a single coupling, used to
state the claims. -/
def tpPred (dm : MMat) (p : Nat × Nat) : Bool :=
  isContact (dm p.1 p.2) || isContact (dm p.2 p.1)

/-- Final formula of `Alignment.calculate_coevolution_score`
(src/alignment.py lines 298-308), taking the distance matrix as input:
`np.log10(1 + true_pos * (query.last - query.first))`. -/
noncomputable def coevolution_score (dm : MMat) (top : List (Nat × Nat))
    (first last : Int) : ℝ :=
  Real.logb 10 (1 + (true_pos dm top : ℝ) * ((last : ℝ) - (first : ℝ)))

/-- Scenario C distance matrix: entry `(0, 3)` holds `5.0`, everything else
unset. -/
def dmScenC : MMat := fun i j => if i = 0 ∧ j = 3 then MCell.val 5 else MCell.unset

/-! ### Solvent-accessibility score (`Alignment.calculate_solvent_access_score`) -/

/-- `keep_accessible_residues` (src/alignment.py lines 73-85): keep the
entries with RSA value strictly above the threshold. -/
def keep_accessible_residues (dsspRsa : List (Nat × ℚ)) (threshold : ℚ) :
    List (Nat × ℚ) :=
  dsspRsa.filter (fun kv => threshold < kv.2)

/-- `Alignment.calculate_solvent_access_score` (src/alignment.py lines
311-346), from the point where the DSSP outputs are available: the RSA
value lists of the two DSSP runs are inputs (the PDB parsing and DSSP
subprocess are external collaborators).  The final division
`common_residues_len / len(query_index_ali)` has no guard in the source;
its `ZeroDivisionError` is modelled as `none`. -/
def calculate_solvent_access_score (query template : List String)
    (predRsa templRsa : List ℚ) (threshold : ℚ) : Option ℚ :=
  let query_index_ali := (List.range query.length).filter
    (fun i => ¬ query.getD i "-" = "-")
  let template_index_ali := (List.range template.length).filter
    (fun i => ¬ template.getD i "-" = "-")
  let rsa_pred_model := query_index_ali.zip predRsa
  let rsa_template_model := template_index_ali.zip templRsa
  let pred_access_residues := keep_accessible_residues rsa_pred_model threshold
  let template_access_residues := keep_accessible_residues rsa_template_model threshold
  let common_residues_len := ((pred_access_residues.map Prod.fst).filter
    (fun k => (template_access_residues.map Prod.fst).contains k)).length
  if query_index_ali.length = 0 then none
  else some ((common_residues_len : ℚ) / (query_index_ali.length : ℚ))

/-! ### Concrete oracles for witnesses and counterexamples -/

/-- Constant distance oracle (7 Å everywhere). -/
def dSeven : Nat → Nat → ℚ := fun _ _ => 7

/-- Concrete CB-CB distance oracle (6 Å everywhere). -/
def cbSix : Nat → Nat → ℚ := fun _ _ => 6

/-- Concrete CA-CA distance oracle (2 Å everywhere). -/
def caTwo : Nat → Nat → ℚ := fun _ _ => 2

/-- Invariant of the co-evolution distance matrix: every cell holding a
numeric distance holds a CB-with-CA-fallback distance between some pair of
template residues — never a distance produced by any other atom choice. -/
def CbCaOnly (hasCB : Nat → Bool) (dCB dCA : Nat → Nat → ℚ) (m : MMat) : Prop :=
  ∀ i j v, m i j = MCell.val v → ∃ a b, v = cbOrCaDist hasCB dCB dCA a b

end FoldU

namespace FoldU

/-! ## Helper lemmas: threading score invariants -/

theorem zon_initTMat : ZeroOrNone initTMat := fun _ _ => Or.inl rfl

theorem zon_tSetRowFrom {m : TMat} (h : ZeroOrNone m) (i lo w : Nat) :
    ZeroOrNone (tSetRowFrom m i lo w (some 0)) := by
  intro a b
  unfold tSetRowFrom
  split
  · exact Or.inr rfl
  · exact h a b

theorem nansum_eq_zero {m : TMat} (h : ZeroOrNone m) (n : Nat) : nansum m n = 0 := by
  unfold nansum
  refine List.sum_eq_zero ?_
  intro x hx
  simp only [List.mem_map] at hx
  obtain ⟨i, _, rfl⟩ := hx
  refine List.sum_eq_zero ?_
  intro y hy
  simp only [List.mem_map] at hy
  obtain ⟨j, _, rfl⟩ := hy
  rcases h i j with h' | h' <;> simp [h']

theorem threadRow_zon {query template : List String} {dist : Nat → Nat → ℚ}
    {lo hi : ℚ} {dope : String → Int → ℚ} {qsize : Nat} {m : TMat}
    (h : ZeroOrNone m) (i : Nat)
    (hcase : qsize ≤ 3 ∨ query.getD i "-" = "-") :
    ZeroOrNone (threadRow query template dist lo hi dope qsize m i) := by
  unfold threadRow
  split
  · exact h
  · split
    · exact zon_tSetRowFrom h _ _ _
    · rename_i hnotgap
      rcases hcase with h3 | hgap
      · have hz : qsize - 1 - (i + 2) = 0 := by omega
        rw [hz]
        simpa using h
      · exact absurd (Or.inl hgap) hnotgap

theorem foldl_threadRow_zon {query template : List String} {dist : Nat → Nat → ℚ}
    {lo hi : ℚ} {dope : String → Int → ℚ} {qsize : Nat} :
    ∀ (l : List Nat) (m : TMat), (∀ i ∈ l, qsize ≤ 3 ∨ query.getD i "-" = "-") →
    ZeroOrNone m →
    ZeroOrNone (l.foldl (threadRow query template dist lo hi dope qsize) m)
  | [], _, _, hm => hm
  | i :: l, m, hl, hm =>
    foldl_threadRow_zon l _ (fun j hj => hl j (List.mem_cons_of_mem _ hj))
      (threadRow_zon hm i (hl i (List.mem_cons_self _ _)))

/-! ## Helper lemmas: threading-module distance matrix -/

theorem distInner_gap_row {query template : List String} {d : Nat → Nat → ℚ}
    {lo hi : ℚ} {qsize i : Nat} {m : DMat} {j : Nat} {js : List Nat}
    (hgap : query.getD i "-" = "-" ∨ template.getD i "-" = "-") :
    distInner query template d lo hi qsize i m (j :: js) = dSetRowFrom m i j qsize := by
  unfold distInner
  rw [if_pos hgap]

theorem distInner_preserves_star {query template : List String} {d : Nat → Nat → ℚ}
    {lo hi : ℚ} {qsize : Nat} {i b : Nat} :
    ∀ (i' : Nat) (l : List Nat) (m : DMat), i' ≠ i → m i b = DCell.star →
    (distInner query template d lo hi qsize i' m l) i b = DCell.star
  | _, [], _, _, hstar => hstar
  | i', j :: js, m, hne, hstar => by
    unfold distInner
    split
    · unfold dSetRowFrom
      split
      · rfl
      · exact hstar
    · split
      · unfold dSetColUpTo
        split
        · rfl
        · exact hstar
      · split
        · refine distInner_preserves_star i' js _ hne ?_
          unfold dSetCell
          split
          · rename_i hc
            exact absurd hc.1.symm hne
          · exact hstar
        · exact distInner_preserves_star i' js m hne hstar

theorem foldl_rows_preserves_star {query template : List String} {d : Nat → Nat → ℚ}
    {lo hi : ℚ} {qsize : Nat} {i b : Nat} :
    ∀ (l : List Nat) (m : DMat), (∀ i' ∈ l, i' ≠ i) → m i b = DCell.star →
    (l.foldl (fun m i' => distInner query template d lo hi qsize i' m
        (List.range' i' (qsize - i'))) m) i b = DCell.star
  | [], _, _, hstar => hstar
  | i' :: l, m, hl, hstar =>
    foldl_rows_preserves_star l _ (fun r hr => hl r (List.mem_cons_of_mem _ hr))
      (distInner_preserves_star i' _ m (hl i' (List.mem_cons_self _ _)) hstar)

/-! ## Helper lemmas: secondary-structure cursors and count -/

theorem ssSkipAux_ge (rs : List SSRes) (n : Nat) :
    ∀ (fuel k : Nat), k ≤ ssSkipAux rs n fuel k
  | 0, _ => le_refl _
  | fuel + 1, k => by
    unfold ssSkipAux
    split
    · exact le_trans (Nat.le_succ k) (ssSkipAux_ge rs n fuel (k + 1))
    · exact le_refl _

theorem ssSkipAux_stop (rs : List SSRes) (n : Nat) :
    ∀ (fuel k : Nat), n ≤ fuel + k → ssSkipAux rs n fuel k < n →
    ¬ (rs.getD (ssSkipAux rs n fuel k) gapRes).secondary_struct = "-"
  | 0, k, hfuel, hlt => by
    simp only [ssSkipAux] at hlt
    omega
  | fuel + 1, k, hfuel, hlt => by
    unfold ssSkipAux at hlt ⊢
    by_cases hcond : k < n ∧ (rs.getD k gapRes).secondary_struct = "-"
    · rw [if_pos hcond] at hlt ⊢
      exact ssSkipAux_stop rs n fuel (k + 1) (by omega) hlt
    · rw [if_neg hcond] at hlt ⊢
      push_neg at hcond
      exact hcond hlt

theorem ssSkip_ge (rs : List SSRes) (n k : Nat) : k ≤ ssSkip rs n k :=
  ssSkipAux_ge rs n (n - k) k

theorem ssSkip_stop (rs : List SSRes) (n k : Nat) (hlt : ssSkip rs n k < n) :
    ¬ (rs.getD (ssSkip rs n k) gapRes).secondary_struct = "-" :=
  ssSkipAux_stop rs n (n - k) k (by omega) hlt

theorem countP_drop_le_drop (q : List SSRes) (p : SSRes → Bool) (a b : Nat) (hab : a ≤ b) :
    (q.drop b).countP p ≤ (q.drop a).countP p := by
  have h : q.drop b = (q.drop a).drop (b - a) := by
    rw [List.drop_drop]
    congr 1
    omega
  rw [h]
  exact (List.drop_sublist _ _).countP_le p

theorem ssCount_le (q t : List SSRes) :
    ∀ (fuel qi ti : Nat),
    ssCount q t q.length fuel qi ti ≤
      (q.drop qi).countP (fun r => ¬ r.secondary_struct = "-")
  | 0, _, _ => Nat.zero_le _
  | fuel + 1, qi, ti => by
    simp only [ssCount]
    split
    · rename_i hcond
      have hqi : ssSkip q q.length qi < q.length := hcond.1
      have hss := ssSkip_stop q q.length qi hqi
      have hrec := ssCount_le q t fuel (ssSkip q q.length qi + 1) (ssSkip t q.length ti + 1)
      have hdrop := List.drop_eq_getElem_cons hqi
      have hgetD := List.getD_eq_getElem q gapRes hqi
      have hcnt : (q.drop (ssSkip q q.length qi)).countP
            (fun r => ¬ r.secondary_struct = "-")
          = (q.drop (ssSkip q q.length qi + 1)).countP
            (fun r => ¬ r.secondary_struct = "-") + 1 := by
        rw [hdrop, List.countP_cons, if_pos]
        rw [← hgetD]
        simpa using hss
      have hmono := countP_drop_le_drop q (fun r => ¬ r.secondary_struct = "-")
        qi (ssSkip q q.length qi) (ssSkip_ge q q.length qi)
      omega
    · have hrec := ssCount_le q t fuel (ssSkip q q.length qi + 1) (ssSkip t q.length ti + 1)
      have hmono := countP_drop_le_drop q (fun r => ¬ r.secondary_struct = "-")
        qi (ssSkip q q.length qi + 1)
        (by have := ssSkip_ge q q.length qi; omega)
      omega

theorem ssSkipAux_congr {q t : List SSRes} {n : Nat}
    (hlab : ∀ i, i < n →
      (q.getD i gapRes).secondary_struct = (t.getD i gapRes).secondary_struct) :
    ∀ (fuel k : Nat), ssSkipAux q n fuel k = ssSkipAux t n fuel k
  | 0, _ => rfl
  | fuel + 1, k => by
    unfold ssSkipAux
    by_cases hk : k < n
    · rw [hlab k hk]
      by_cases hcond : k < n ∧ (t.getD k gapRes).secondary_struct = "-"
      · rw [if_pos hcond, if_pos hcond]
        exact ssSkipAux_congr hlab fuel (k + 1)
      · rw [if_neg hcond, if_neg hcond]
    · rw [if_neg (fun h => hk h.1), if_neg (fun h => hk h.1)]

theorem ssCount_eq_zero {q t : List SSRes} {n : Nat}
    (hlab : ∀ i, i < n →
      (q.getD i gapRes).secondary_struct = (t.getD i gapRes).secondary_struct) :
    ∀ (fuel k : Nat), ssCount q t n fuel k k = 0
  | 0, _ => rfl
  | fuel + 1, k => by
    simp only [ssCount]
    have hskip : ssSkip q n k = ssSkip t n k := ssSkipAux_congr hlab (n - k) k
    rw [← hskip]
    have hcond : ¬ (ssSkip q n k < n ∧ ssSkip q n k < n ∧
        (q.getD (ssSkip q n k) gapRes).ss_confidence < 7 ∧
        ¬ (q.getD (ssSkip q n k) gapRes).secondary_struct
          = (t.getD (ssSkip q n k) gapRes).secondary_struct) := by
      intro hcond
      exact hcond.2.2.2 (hlab _ hcond.1)
    rw [if_neg hcond, ssCount_eq_zero hlab fuel (ssSkip q n k + 1)]

/-! ## Helper lemmas: co-evolution count -/

theorem foldl_tpStep (dm : MMat) :
    ∀ (top : List (Nat × Nat)) (acc : Nat),
    top.foldl (tpStep dm) acc = acc + top.countP (tpPred dm)
  | [], acc => by simp
  | p :: l, acc => by
    rw [List.foldl_cons, foldl_tpStep dm l (tpStep dm acc p), List.countP_cons]
    unfold tpStep tpPred
    by_cases hc : isContact (dm p.1 p.2) ∨ isContact (dm p.2 p.1)
    · rw [if_pos hc, if_pos (by simpa [Bool.or_eq_true] using hc)]
      omega
    · rw [if_neg hc, if_neg (by simpa [Bool.or_eq_true] using hc)]
      omega

theorem true_pos_eq_countP (dm : MMat) (top : List (Nat × Nat)) :
    true_pos dm top = top.countP (tpPred dm) := by
  unfold true_pos
  rw [foldl_tpStep dm top 0]
  omega

/-! ## Helper lemmas: co-evolution distance matrix on gapless full-span input -/

theorem skipGaps_id {query : List String} (hgap : ∀ r ∈ query, r ≠ "-") (k : Nat) :
    skipGaps query query.length k = k := by
  unfold skipGaps
  cases hf : query.length - k with
  | zero => rfl
  | succ fuel =>
    unfold skipGapsAux
    rw [if_neg]
    intro hcond
    have hg := List.getD_eq_getElem query "-" hcond.1
    exact hgap _ (List.getElem_mem _) (hg ▸ hcond.2)

theorem templateGapFalse {query template : List String} (j : Nat)
    (hgt : ∀ r ∈ template, r ≠ "-") (hlen : template.length = query.length) :
    ¬ (j < query.length ∧ template.getD j "-" = "-") := by
  intro hcond
  have hj : j < template.length := by omega
  have hg := List.getD_eq_getElem template "-" hj
  exact hgt _ (List.getElem_mem _) (hg ▸ hcond.2)

theorem cdmInner_gapless {query template : List String} {hasCB : Nat → Bool}
    {dCB dCA : Nat → Nat → ℚ} {size : Nat} (d : Nat)
    (hgq : ∀ r ∈ query, r ≠ "-") (hgt : ∀ r ∈ template, r ≠ "-")
    (hlen : template.length = query.length) :
    ∀ (c j₀ : Nat) (m : MMat), (∀ b, m d b ≠ MCell.x) →
    cdmInner query template hasCB dCB dCA query.length size d d (m, j₀) (List.range' j₀ c)
      = (fun a b => if a = d ∧ j₀ ≤ b ∧ b < j₀ + c
          then MCell.val (cbOrCaDist hasCB dCB dCA d b) else m a b, j₀ + c)
  | 0, j₀, m, hnx => by
    show cdmInner query template hasCB dCB dCA query.length size d d (m, j₀) [] = _
    unfold cdmInner
    simp only [Prod.mk.injEq]
    constructor
    · funext a b
      rw [if_neg (by omega)]
    · omega
  | c + 1, j₀, m, hnx => by
    rw [List.range'_succ]
    simp only [cdmInner]
    rw [skipGaps_id hgq j₀, if_neg (templateGapFalse j₀ hgt hlen), if_pos (hnx j₀)]
    rw [cdmInner_gapless d hgq hgt hlen c (j₀ + 1) _ ?hnx]
    case hnx =>
      intro b
      unfold mSetCell
      split
      · exact fun h => MCell.noConfusion h
      · exact hnx b
    simp only [Prod.mk.injEq]
    constructor
    · funext a b
      unfold mSetCell
      by_cases h1 : a = d ∧ j₀ + 1 ≤ b ∧ b < j₀ + 1 + c
      · rw [if_pos h1, if_pos ⟨h1.1, by omega, by omega⟩]
      · rw [if_neg h1]
        by_cases h2 : a = d ∧ b = j₀
        · rw [if_pos h2, if_pos ⟨h2.1, by omega, by omega⟩, h2.2]
        · rw [if_neg h2, if_neg (show ¬ (a = d ∧ j₀ ≤ b ∧ b < j₀ + (c + 1)) by omega)]
    · omega

theorem cdmOuter_gapless {query template : List String} {hasCB : Nat → Bool}
    {dCB dCA : Nat → Nat → ℚ} {size last : Nat}
    (hgq : ∀ r ∈ query, r ≠ "-") (hgt : ∀ r ∈ template, r ≠ "-")
    (hlen : template.length = query.length) :
    ∀ (c d : Nat) (m : MMat), (∀ a b, m a b ≠ MCell.x) →
    (cdmOuter query template hasCB dCB dCA query.length size last (m, d)
        (List.range' d c)).1
      = fun a b => if d ≤ a ∧ a < d + c ∧ a < b ∧ b < last
          then MCell.val (cbOrCaDist hasCB dCB dCA a b) else m a b
  | 0, d, m, hnx => by
    show (cdmOuter query template hasCB dCB dCA query.length size last (m, d) []).1 = _
    unfold cdmOuter
    funext a b
    rw [if_neg (by omega)]
  | c + 1, d, m, hnx => by
    rw [List.range'_succ]
    simp only [cdmOuter]
    rw [skipGaps_id hgq d, if_neg (templateGapFalse d hgt hlen)]
    rw [cdmInner_gapless d hgq hgt hlen (last - (d + 1)) (d + 1) m (fun b => hnx d b)]
    show (cdmOuter query template hasCB dCB dCA query.length size last
      ((fun a b => if a = d ∧ d + 1 ≤ b ∧ b < d + 1 + (last - (d + 1))
          then MCell.val (cbOrCaDist hasCB dCB dCA d b) else m a b), d + 1)
      (List.range' (d + 1) c)).1 = _
    rw [cdmOuter_gapless hgq hgt hlen c (d + 1) _ ?hnx]
    case hnx =>
      intro a b
      split
      · exact fun h => MCell.noConfusion h
      · exact hnx a b
    funext a b
    by_cases h1 : d ≤ a ∧ a < d + (c + 1) ∧ a < b ∧ b < last
    · rw [if_pos h1]
      by_cases h2 : a = d
      · subst h2
        rw [if_neg (by omega), if_pos ⟨rfl, by omega, by omega⟩]
      · rw [if_pos ⟨by omega, by omega, h1.2.2.1, h1.2.2.2⟩]
    · rw [if_neg h1, if_neg (by omega), if_neg (show ¬ (a = d ∧ d + 1 ≤ b ∧
        b < d + 1 + (last - (d + 1))) by omega)]

theorem cdmRun_gapless (query template : List String) (hasCB : Nat → Bool)
    (dCB dCA : Nat → Nat → ℚ) (n : Nat)
    (hq : query.length = n) (ht : template.length = n)
    (hgq : ∀ r ∈ query, r ≠ "-") (hgt : ∀ r ∈ template, r ≠ "-")
    (i j : Nat) (hij : i < j) (hjn : j < n) :
    cdmRun query template hasCB dCB dCA 1 n n i j
      = MCell.val (cbOrCaDist hasCB dCB dCA i j) := by
  subst hq
  simp only [cdmRun]
  norm_num
  unfold cdmSuffix cdmPrefix
  rw [cdmOuter_gapless hgq hgt (by omega) query.length 0 initMMat
    (fun a b => fun h => MCell.noConfusion h)]
  show (if 0 ≤ i ∧ i < 0 + query.length ∧ i < j ∧ j < query.length
    then MCell.val (cbOrCaDist hasCB dCB dCA i j) else initMMat i j) = _
  rw [if_pos ⟨by omega, by omega, hij, hjn⟩]

/-! ## Helper lemmas: the CB-fallback invariant on arbitrary input -/

theorem cbca_initMMat (hasCB : Nat → Bool) (dCB dCA : Nat → Nat → ℚ) :
    CbCaOnly hasCB dCB dCA initMMat :=
  fun _ _ _ hv => absurd hv (fun h => MCell.noConfusion h)

theorem cbca_mSetRowFrom {hasCB : Nat → Bool} {dCB dCA : Nat → Nat → ℚ} {m : MMat}
    (h : CbCaOnly hasCB dCB dCA m) (i lo w : Nat) :
    CbCaOnly hasCB dCB dCA (mSetRowFrom m i lo w) := by
  intro a b v hv
  unfold mSetRowFrom at hv
  split at hv
  · exact absurd hv (fun h' => MCell.noConfusion h')
  · exact h a b v hv

theorem cbca_mSetBlock {hasCB : Nat → Bool} {dCB dCA : Nat → Nat → ℚ} {m : MMat}
    (h : CbCaOnly hasCB dCB dCA m) (rhi clo w : Nat) :
    CbCaOnly hasCB dCB dCA (mSetBlock m rhi clo w) := by
  intro a b v hv
  unfold mSetBlock at hv
  split at hv
  · exact absurd hv (fun h' => MCell.noConfusion h')
  · exact h a b v hv

theorem cbca_mSetCell {hasCB : Nat → Bool} {dCB dCA : Nat → Nat → ℚ} {m : MMat}
    (h : CbCaOnly hasCB dCB dCA m) (i j p q : Nat) :
    CbCaOnly hasCB dCB dCA
      (mSetCell m i j (MCell.val (cbOrCaDist hasCB dCB dCA p q))) := by
  intro a b v hv
  unfold mSetCell at hv
  split at hv
  · injection hv with hv'
    exact ⟨p, q, hv'.symm⟩
  · exact h a b v hv

theorem cbca_cdmInner {query template : List String} {hasCB : Nat → Bool}
    {dCB dCA : Nat → Nat → ℚ} {qsize size dist_i index_i : Nat} :
    ∀ (l : List Nat) (m : MMat) (idx : Nat), CbCaOnly hasCB dCB dCA m →
    CbCaOnly hasCB dCB dCA
      (cdmInner query template hasCB dCB dCA qsize size dist_i index_i (m, idx) l).1
  | [], _, _, h => h
  | dist_j :: rest, m, idx, h => by
    simp only [cdmInner]
    split
    · exact cbca_cdmInner rest _ _ (cbca_mSetRowFrom h _ _ _)
    · split
      · exact cbca_cdmInner rest _ _ (cbca_mSetCell h _ _ _ _)
      · exact cbca_cdmInner rest _ _ h

theorem cbca_cdmOuter {query template : List String} {hasCB : Nat → Bool}
    {dCB dCA : Nat → Nat → ℚ} {qsize size last : Nat} :
    ∀ (l : List Nat) (m : MMat) (idx : Nat), CbCaOnly hasCB dCB dCA m →
    CbCaOnly hasCB dCB dCA
      (cdmOuter query template hasCB dCB dCA qsize size last (m, idx) l).1
  | [], _, _, h => h
  | dist_i :: rest, m, idx, h => by
    simp only [cdmOuter]
    split
    · exact cbca_cdmOuter rest _ _ (cbca_mSetRowFrom h _ _ _)
    · exact cbca_cdmOuter rest _ _ (cbca_cdmInner _ _ _ h)

theorem cbca_cdmPrefix {hasCB : Nat → Bool} {dCB dCA : Nat → Nat → ℚ} {size : Nat} :
    ∀ (l : List Nat) (m : MMat), CbCaOnly hasCB dCB dCA m →
    CbCaOnly hasCB dCB dCA (cdmPrefix size m l)
  | [], _, h => h
  | _ :: rest, _, h => cbca_cdmPrefix rest _ (cbca_mSetRowFrom h _ _ _)

theorem cbca_cdmSuffix {hasCB : Nat → Bool} {dCB dCA : Nat → Nat → ℚ} {size : Nat} :
    ∀ (l : List Nat) (m : MMat), CbCaOnly hasCB dCB dCA m →
    CbCaOnly hasCB dCB dCA (cdmSuffix size m l)
  | [], _, h => h
  | _ :: rest, _, h => cbca_cdmSuffix rest _ (cbca_mSetBlock h _ _ _)

theorem cbca_cdmRun (query template : List String) (hasCB : Nat → Bool)
    (dCB dCA : Nat → Nat → ℚ) (first last size : Nat) :
    CbCaOnly hasCB dCB dCA (cdmRun query template hasCB dCB dCA first last size) := by
  simp only [cdmRun]
  exact cbca_cdmSuffix _ _
    (cbca_cdmOuter _ _ _ (cbca_cdmPrefix _ _ (cbca_initMMat hasCB dCB dCA)))

end FoldU

namespace FoldU

/-! ## Claim theorems -/

/-- C1 (counterexample): on Scenario A (query = template = "AAAA",
dist_range = [4, 12], collinear CA atoms 3.8 Å apart) the threading score is
NOT `-1 × (lookup("AA", bucket(7.6)) × 2)`: with the all-ones DOPE table the
claim predicts `-2` but `calculate_threading_score` returns `-1`, because
the inner pair loop `range(i + 2, query_size - 1)` never scores the pair
(1, 3). -/
theorem C1_scenarioA_counterexample :
    calculate_threading_score seqAAAA seqAAAA lineDist 4 12 dopeOne
      ≠ -(dopeOne "AA" 15 * 2) := by
  simp [calculate_threading_score, seqAAAA, nansum, List.range_succ, threadRow, threadInner,
    initTMat, tSetCell, tSetRowFrom, tSetColUpTo, lineDist, pyInt, dopeOne]
  norm_num [tSetCell, initTMat]

/-- C1 (amended): on Scenario A the threading score equals
`-1 × lookup("AA", bucket(7.6))` for every DOPE table: the only scored pair
is (0, 2) at 7.6 Å (bucket 15); the pairs (1, 3) and (0, 3) are excluded
because the inner loop stops at `query_size - 1`. -/
theorem C1_scenarioA_amended (dope : String → Int → ℚ) :
    calculate_threading_score seqAAAA seqAAAA lineDist 4 12 dope = -(dope "AA" 15) := by
  simp [calculate_threading_score, seqAAAA, nansum, List.range_succ, threadRow, threadInner,
    initTMat, tSetCell, tSetRowFrom, tSetColUpTo, lineDist, pyInt]
  norm_num [tSetCell, initTMat]

/-- C2: the optimized `calc_dist_matrix` does NOT produce the same matrix as
independent pairwise gap checking.  On query "A-", template "AA" the
pairwise reference marks cell (0, 1) with the gap marker, but the optimized
builder leaves it at the `np.inf` fill: its column-gap branch writes
`matrix[:i, j]` (rows above `i` only) and then `break`s out of the row. -/
theorem C2_optimized_vs_pairwise_failing_input :
    calc_dist_matrix ["A", "-"] ["A", "A"] dSeven 4 12 0 1 = DCell.inf ∧
    calc_dist_matrix_pairwise ["A", "-"] ["A", "A"] dSeven 4 12 0 1 = DCell.star := by
  constructor
  · norm_num [calc_dist_matrix, distInner, List.range_succ, List.range', dSeven,
      dSetCell, dSetRowFrom, dSetColUpTo, initDMat]
    decide
  · norm_num [calc_dist_matrix_pairwise]

/-- C3: on a query with no aligned (non-gap) positions the solvent
accessibility scorer does NOT return 0: the final division
`common_residues_len / len(query_index_ali)` has no guard, so the call
raises `ZeroDivisionError` (modelled as `none`) on a fully gapped query of
length 5. -/
theorem C3_solvent_access_zero_denominator_raises :
    calculate_solvent_access_score ["-", "-", "-", "-", "-"] ["A", "A", "A", "A", "A"]
      [1, 1, 1, 1, 1] [1, 1, 1, 1, 1] (1/4) = none := by
  simp [calculate_solvent_access_score, List.range_succ]

/-- C4 (counterexample): the distance matrix consumed by the co-evolution
scorer does NOT hold CA-CA distances: on a gapless 2-residue alignment
whose residues both have CB coordinates (CB oracle 6 Å, CA oracle 2 Å) the
filled entry (0, 1) is the CB distance 6, not the CA distance 2. -/
theorem C4_ca_claim_counterexample :
    cdmRun ["A", "A"] ["A", "A"] (fun _ => true) cbSix caTwo 1 2 2 0 1
      = MCell.val (cbSix 0 1) ∧
    cdmRun ["A", "A"] ["A", "A"] (fun _ => true) cbSix caTwo 1 2 2 0 1
      ≠ MCell.val (caTwo 0 1) := by
  have h := cdmRun_gapless ["A", "A"] ["A", "A"] (fun _ => true) cbSix caTwo 2 rfl rfl
    (by decide) (by decide) 0 1 (by norm_num) (by norm_num)
  rw [show cbOrCaDist (fun _ => true) cbSix caTwo 0 1 = cbSix 0 1 from if_pos (by simp)] at h
  refine ⟨h, ?_⟩
  rw [h]
  simp only [cbSix, caTwo, ne_eq, MCell.val.injEq]
  norm_num

/-- C4 (amended): for every alignment (gapped or not) and every span,
every cell that the distance matrix consumed by the co-evolution scorer
fills with a numeric distance holds a CB-with-CA-fallback distance —
the distance between the template's CB atoms of a residue pair that both
have CB coordinates, or between the CA atoms of a pair not both having CB
coordinates — never the plain CA choice; and on gapless alignments
covering the full query span the entry at (i, j) is exactly the
CB-fallback distance between residues i and j. -/
theorem C4_cb_fallback_amended (query template : List String) (hasCB : Nat → Bool)
    (dCB dCA : Nat → Nat → ℚ) :
    (∀ (first last size : Nat) (m : MMat) (i j : Nat) (v : ℚ),
      calculate_distance_matrix query template hasCB dCB dCA first last size = some m →
      m i j = MCell.val v →
      ∃ a b, v = cbOrCaDist hasCB dCB dCA a b) ∧
    (∀ (n i j : Nat), query.length = n → template.length = n →
      (∀ r ∈ query, r ≠ "-") → (∀ r ∈ template, r ≠ "-") → i < j → j < n →
      cdmRun query template hasCB dCB dCA 1 n n i j
        = MCell.val (cbOrCaDist hasCB dCB dCA i j)) := by
  constructor
  · intro first last size m i j v hm hv
    unfold calculate_distance_matrix at hm
    split at hm
    · injection hm with hm'
      rw [← hm'] at hv
      exact cbca_cdmRun query template hasCB dCB dCA first last size i j v hv
    · exact absurd hm (fun h => Option.noConfusion h)
  · intro n i j hq ht hgq hgt hij hjn
    exact cdmRun_gapless query template hasCB dCB dCA n hq ht hgq hgt i j hij hjn

/-- C4 (witness): the general part applied to the filled cell (0, 1) of a
concrete 2-residue alignment (value 6, the CB distance), and the gapless
full-span part applied to a concrete 2-residue alignment at (0, 1). -/
theorem C4_cb_fallback_amended_witness :
    (∃ a b, (6 : ℚ) = cbOrCaDist (fun _ => true) cbSix caTwo a b) ∧
    cdmRun ["A", "G"] ["A", "G"] (fun _ => true) cbSix caTwo 1 2 2 0 1
      = MCell.val (cbOrCaDist (fun _ => true) cbSix caTwo 0 1) := by
  constructor
  · refine (C4_cb_fallback_amended ["A", "A"] ["A", "A"] (fun _ => true) cbSix caTwo).1
      1 2 2 (cdmRun ["A", "A"] ["A", "A"] (fun _ => true) cbSix caTwo 1 2 2) 0 1 6 ?_ ?_
    · unfold calculate_distance_matrix
      rw [if_pos (by norm_num)]
    · have hc := cdmRun_gapless ["A", "A"] ["A", "A"] (fun _ => true) cbSix caTwo 2 rfl rfl
        (by decide) (by decide) 0 1 (by norm_num) (by norm_num)
      rw [hc]
      rfl
  · exact (C4_cb_fallback_amended ["A", "G"] ["A", "G"] (fun _ => true) cbSix caTwo).2
      2 0 1 rfl rfl (by decide) (by decide) (by norm_num) (by norm_num)

/-- C5: for every distance matrix, coupling list and query span, the
co-evolution score equals `log10(1 + tp × (last − first))` where `tp`
counts the couplings whose (i, j) or (j, i) entry is a numeric distance
strictly below 8 Å; an empty coupling list yields 0; and Scenario C
(`top_couplings = {1: (0, 3)}`, entry (0, 3) = 5.0, span 1–50) yields
`log10(50)`. -/
theorem C5_coevolution_formula_and_scenarios (dm : MMat) (top : List (Nat × Nat))
    (first last : Int) :
    (coevolution_score dm top first last =
      Real.logb 10 (1 + (top.countP (tpPred dm) : ℝ) * ((last : ℝ) - (first : ℝ)))) ∧
    coevolution_score dm [] first last = 0 ∧
    coevolution_score dmScenC [(0, 3)] 1 50 = Real.logb 10 50 := by
  refine ⟨?_, ?_, ?_⟩
  · unfold coevolution_score
    rw [true_pos_eq_countP]
  · unfold coevolution_score true_pos
    simp [Real.logb_one]
  · unfold coevolution_score
    have h1 : true_pos dmScenC [(0, 3)] = 1 := by
      unfold true_pos tpStep
      simp [dmScenC, isContact]
      norm_num
    rw [h1]
    norm_num

/-- C6: the threading score is exactly 0 (returned, not raised) for every
alignment of length at most 3, and for every fully gapped alignment of any
length. -/
theorem C6_threading_small_and_gapped (query template : List String)
    (dist : Nat → Nat → ℚ) (lo hi : ℚ) (dope : String → Int → ℚ)
    (hlen : query.length = template.length) :
    (query.length ≤ 3 → calculate_threading_score query template dist lo hi dope = 0) ∧
    ((∀ r ∈ query, r = "-") →
      calculate_threading_score query template dist lo hi dope = 0) := by
  constructor
  · intro h3
    simp only [calculate_threading_score]
    rw [nansum_eq_zero (foldl_threadRow_zon _ _ (fun i _ => Or.inl h3) zon_initTMat)]
    ring
  · intro hgap
    simp only [calculate_threading_score]
    rw [nansum_eq_zero (foldl_threadRow_zon _ _ ?_ zon_initTMat)]
    · ring
    · intro i hi
      refine Or.inr ?_
      have hilt : i < query.length := List.mem_range.mp hi
      rw [List.getD_eq_getElem _ _ hilt]
      exact hgap _ (List.getElem_mem _)

/-- C6 (witness): both parts applied to concrete length-1 alignments. -/
theorem C6_threading_small_and_gapped_witness :
    calculate_threading_score ["-"] ["-"] lineDist 4 12 dopeOne = 0 ∧
    calculate_threading_score ["A"] ["A"] lineDist 4 12 dopeOne = 0 :=
  ⟨(C6_threading_small_and_gapped ["-"] ["-"] lineDist 4 12 dopeOne rfl).2 (by simp),
   (C6_threading_small_and_gapped ["A"] ["A"] lineDist 4 12 dopeOne rfl).1 (by norm_num)⟩

/-- C7: on a query with zero non-gap residues the secondary-structure
scorer reports the zero-denominator condition (the `ZeroDivisionError`
branch, second component `true`) and completes, returning the neutral
score 0 instead of propagating an exception. -/
theorem C7_ss_zero_gapless_reported_not_raised (q t : List SSRes)
    (hlen : q.length = t.length) (hgap : ∀ r ∈ q, r.name = "-") :
    calculate_ss_score q t = (0, true) := by
  simp only [calculate_ss_score]
  have h0 : (q.filter (fun r => r.name ≠ "-")).length = 0 := by
    rw [List.length_eq_zero, List.filter_eq_nil_iff]
    intro a ha
    simp [hgap a ha]
  rw [h0]
  simp

/-- C7 (witness): the fully gapped query of length 5 from Scenario B. -/
theorem C7_ss_zero_gapless_reported_not_raised_witness :
    calculate_ss_score
      [⟨"-", "-", 0⟩, ⟨"-", "-", 0⟩, ⟨"-", "-", 0⟩, ⟨"-", "-", 0⟩, ⟨"-", "-", 0⟩]
      [⟨"A", "H", 9⟩, ⟨"A", "H", 9⟩, ⟨"A", "H", 9⟩, ⟨"A", "H", 9⟩, ⟨"A", "H", 9⟩]
      = (0, true) :=
  C7_ss_zero_gapless_reported_not_raised _ _ rfl (by intro r hr; fin_cases hr <;> rfl)

/-- C8: under the data-model invariant (a gap-named residue carries the gap
structure label), the secondary-structure score always lies in [0, 1]; and
on an alignment with at least one non-gap query residue whose secondary
structure labels agree position for position with the template's, the
score is exactly 1. -/
theorem C8_ss_score_bounds_and_identity (q t : List SSRes)
    (hlen : q.length = t.length)
    (hinv : ∀ r ∈ q, r.name = "-" → r.secondary_struct = "-") :
    (0 ≤ (calculate_ss_score q t).1 ∧ (calculate_ss_score q t).1 ≤ 1) ∧
    ((∃ r ∈ q, r.name ≠ "-") →
      (∀ i, i < q.length →
        (q.getD i gapRes).secondary_struct = (t.getD i gapRes).secondary_struct) →
      (calculate_ss_score q t).1 = 1) := by
  have hcle : ssCount q t q.length q.length 0 0 ≤
      (q.filter (fun r => r.name ≠ "-")).length := by
    have h1 := ssCount_le q t q.length 0 0
    rw [List.drop_zero] at h1
    have h2 : q.countP (fun r => ¬ r.secondary_struct = "-") ≤
        q.countP (fun r => r.name ≠ "-") := by
      refine List.countP_mono_left ?_
      intro r hr hss
      simp only [decide_eq_true_eq] at hss ⊢
      intro hname
      exact hss (hinv r hr hname)
    have h3 : q.countP (fun r => r.name ≠ "-") = (q.filter (fun r => r.name ≠ "-")).length :=
      List.countP_eq_length_filter _ _
    omega
  constructor
  · simp only [calculate_ss_score]
    split
    · norm_num
    · rename_i hg
      have hgpos : 0 < (q.filter (fun r => r.name ≠ "-")).length :=
        Nat.pos_of_ne_zero hg
      have hc0 : (0:ℚ) ≤ (ssCount q t q.length q.length 0 0 : ℚ) := by positivity
      have hcleQ : ((ssCount q t q.length q.length 0 0 : ℚ)) ≤
          ((q.filter (fun r => r.name ≠ "-")).length : ℚ) := by exact_mod_cast hcle
      have hgposQ : (0:ℚ) < ((q.filter (fun r => r.name ≠ "-")).length : ℚ) := by
        exact_mod_cast hgpos
      constructor
      · apply div_nonneg
        · linarith
        · linarith
      · rw [div_le_one hgposQ]
        linarith
  · intro hex hlab
    simp only [calculate_ss_score]
    have hzero : ssCount q t q.length q.length 0 0 = 0 := ssCount_eq_zero hlab q.length 0
    have hgne : (q.filter (fun r => r.name ≠ "-")).length ≠ 0 := by
      obtain ⟨r, hr, hname⟩ := hex
      intro h0
      rw [List.length_eq_zero, List.filter_eq_nil_iff] at h0
      exact (h0 r hr) (by simpa using hname)
    rw [if_neg hgne, hzero]
    have hgneQ : ((q.filter (fun r => r.name ≠ "-")).length : ℚ) ≠ 0 := by
      exact_mod_cast hgne
    push_cast
    rw [sub_zero]
    exact div_self hgneQ

/-- C8 (witness): a one-residue alignment identical to its template has
score 1, inside the bounds. -/
theorem C8_ss_score_bounds_and_identity_witness :
    (0 ≤ (calculate_ss_score [⟨"A", "H", 5⟩] [⟨"A", "H", 5⟩]).1 ∧
      (calculate_ss_score [⟨"A", "H", 5⟩] [⟨"A", "H", 5⟩]).1 ≤ 1) ∧
    (calculate_ss_score [⟨"A", "H", 5⟩] [⟨"A", "H", 5⟩]).1 = 1 := by
  have h := C8_ss_score_bounds_and_identity [⟨"A", "H", 5⟩] [⟨"A", "H", 5⟩] rfl
    (by intro r hr; fin_cases hr; intro h; exact absurd h (by decide))
  exact ⟨h.1, h.2 ⟨⟨"A", "H", 5⟩, by simp, by decide⟩ (fun i hi => rfl)⟩

/-- C9: gap monotonicity of `calc_dist_matrix`: for equal-length sequences,
if the query or template residue at row `i` is a gap then every cell
(i, j) with j > i (inside the matrix) is the gap marker `"*"`. -/
theorem C9_gap_monotonicity (query template : List String) (d : Nat → Nat → ℚ)
    (lo hi : ℚ) (hlen : query.length = template.length) (i j : Nat)
    (hgap : query.getD i "-" = "-" ∨ template.getD i "-" = "-")
    (hij : i < j) (hj : j < query.length) :
    calc_dist_matrix query template d lo hi i j = DCell.star := by
  have hiq : i < query.length := lt_trans hij hj
  simp only [calc_dist_matrix]
  have h2 : List.range' i (query.length - i) =
      List.range' (0 + 1 * i) (query.length - i) := by norm_num
  have hsplit : List.range query.length =
      List.range' 0 i ++ List.range' i (query.length - i) := by
    rw [List.range_eq_range', h2, List.range'_append]
    congr 1
    omega
  rw [hsplit, List.foldl_append]
  have hstep : query.length - i = (query.length - i - 1) + 1 := by omega
  rw [hstep, List.range'_succ]
  rw [List.foldl_cons]
  refine foldl_rows_preserves_star _ _ (fun r hr => ?_) ?_
  · have := List.mem_range'_1.mp hr
    omega
  · show (distInner query template d lo hi query.length i
      ((List.range' 0 i).foldl (fun m i' => distInner query template d lo hi
        query.length i' m (List.range' i' (query.length - i'))) initDMat)
      (List.range' i (query.length - i))) i j = DCell.star
    rw [hstep, List.range'_succ, distInner_gap_row hgap]
    unfold dSetRowFrom
    rw [if_pos ⟨rfl, le_of_lt hij, hj⟩]

/-- C9 (witness): a gap in the first query position marks cell (0, 1). -/
theorem C9_gap_monotonicity_witness :
    calc_dist_matrix ["-", "A"] ["A", "A"] dSeven 4 12 0 1 = DCell.star :=
  C9_gap_monotonicity ["-", "A"] ["A", "A"] dSeven 4 12 rfl 0 1 (Or.inl rfl)
    (by norm_num) (by norm_num)

/-- C10: for every distance matrix, query span with last ≥ first, and
coupling list, appending one more true-positive coupling never decreases
the co-evolution score. -/
theorem C10_coevolution_monotonicity (dm : MMat) (top : List (Nat × Nat))
    (first last : Int) (p : Nat × Nat)
    (hfl : first ≤ last) (hp : tpPred dm p = true) :
    coevolution_score dm top first last ≤ coevolution_score dm (top ++ [p]) first last := by
  unfold coevolution_score
  have htp : true_pos dm (top ++ [p]) = true_pos dm top + 1 := by
    unfold true_pos
    rw [List.foldl_append, List.foldl_cons, List.foldl_nil]
    unfold tpStep
    rw [if_pos (by simpa [Bool.or_eq_true, tpPred] using hp)]
  rw [htp]
  have hd : (0:ℝ) ≤ (last:ℝ) - (first:ℝ) := by
    rw [sub_nonneg]
    exact_mod_cast hfl
  have hc0 : (0:ℝ) ≤ (true_pos dm top : ℝ) := by positivity
  have hx : (0:ℝ) < 1 + (true_pos dm top : ℝ) * ((last:ℝ) - (first:ℝ)) := by positivity
  have hy : (0:ℝ) < 1 + ((true_pos dm top + 1 : Nat) : ℝ) * ((last:ℝ) - (first:ℝ)) := by
    positivity
  refine (Real.logb_le_logb (by norm_num) hx hy).mpr ?_
  push_cast
  nlinarith

/-- C10 (witness): appending the true-positive coupling (0, 3) of
Scenario C to the empty list over the span 1–50. -/
theorem C10_coevolution_monotonicity_witness :
    (1 : Int) ≤ 50 ∧ tpPred dmScenC (0, 3) = true ∧
    coevolution_score dmScenC [] 1 50 ≤ coevolution_score dmScenC ([] ++ [(0, 3)]) 1 50 := by
  refine ⟨by norm_num, ?_, ?_⟩
  · simp [tpPred, dmScenC, isContact]
    norm_num
  · exact C10_coevolution_monotonicity dmScenC [] 1 50 (0, 3) (by norm_num)
      (by simp [tpPred, dmScenC, isContact]; norm_num)

end FoldU
